import Mathlib

/-!
Shallow embedding of the bus-route simulation from `busstop/objects.py` and
`busstop/linear.py`.

Modelling conventions:
* Python objects become Lean structures.  Attributes that no constructor in the
  repository ever assigns (`Bus.speed`, `Bus.max_speed`, `Bus.capacity`,
  `BusPassenger.patience`, and the engine's `passenger_num` counter, which only
  `init` assigns) are modelled as `Option` fields; reading such a field while it
  is `none` produces the `attributeError` outcome, exactly as the Python
  attribute lookup would raise `AttributeError`.
* Fallible code returns `Except PyErr`.
* The global `random` module is modelled as an explicit stream state `Rng`
  threaded through the engine: an infinite stream of integer draws
  (`ints : Nat -> Nat`, read at `intPos`) and of unit-interval draws
  (`floats : Nat -> Rat`, read at `floatPos`).  `random.randint(a, b)` maps the
  next integer draw uniformly-shaped into `[a, b]` via `a + d % (b - a + 1)`
  and fails with `valueError` when `b < a`, as in Python.  `random.random()`
  yields the next rational draw (floats are only compared, never combined, so a
  rational model is adequate).
* `print(...)` to standard output is modelled by appending to the `printed` log
  carried in the model state.
* Python list slices `xs[:n]` and `xs[n:]` (with possibly negative `n`) are
  embedded as `pyTake` / `pyDrop` below, including Python's negative-index
  semantics.
-/

/-- Python exception outcomes that the embedded code can raise. -/
inductive PyErr where
  | attributeError
  | valueError
  | indexError
deriving DecidableEq

/-- Domain events emitted by the engine: the tuples
`('waits', p, stop)`, `('boards', p, busOrStop)`, `('alights', p, stop)`,
`('stops', bus, stop)`, `('turns', bus)`. -/
inductive Event where
  | waits (passenger stop : String)
  | boards (passenger busOrStop : String)
  | alights (passenger stop : String)
  | stopsAt (bus stop : String)
  | turns (bus : String)
deriving DecidableEq

/-- BusPassenger: `name`, `source`, `destination` are set by the constructor;
`patience` is read and written by the engine but never assigned by
`BusPassenger.__init__`, hence `Option`. -/
structure BusPassenger where
  name : String
  source : String
  destination : String
  patience : Option Int
deriving DecidableEq

/-- The public constructor `BusPassenger.__init__` (objects.py): assigns
name, source and destination only; no `patience` attribute is created. -/
def mkBusPassenger (name source destination : String) : BusPassenger :=
  { name := name, source := source, destination := destination, patience := none }

/-- BusStop: a named position holding the ordered queue of waiting passengers. -/
structure BusStop where
  name : String
  position : Int × Int
  passengers : List BusPassenger
deriving DecidableEq

/-- The public constructor `BusStop.__init__` (objects.py). -/
def mkBusStop (name : String) (position : Int × Int)
    (passengers : List BusPassenger) : BusStop :=
  { name := name, position := position, passengers := passengers }

/-- Bus: `name`, `position`, `direction`, `passengers` are set by the
constructor; `speed`, `max_speed` and `capacity` are read by the engine but
never assigned by `Bus.__init__`, hence `Option`. -/
structure Bus where
  name : String
  position : Int × Int
  direction : Int
  passengers : List BusPassenger
  speed : Option Int
  max_speed : Option Int
  capacity : Option Int
deriving DecidableEq

/-- The public constructor `Bus.__init__` (objects.py): assigns name, position,
direction and passengers only; no `speed`, `max_speed` or `capacity` attribute
is created. -/
def mkBus (name : String) (position : Int × Int) (direction : Int)
    (passengers : List BusPassenger) : Bus :=
  { name := name, position := position, direction := direction,
    passengers := passengers, speed := none, max_speed := none, capacity := none }

/-- State of the global `random` module: two seeded streams with read positions. -/
structure Rng where
  ints : Nat → Nat
  intPos : Nat
  floats : Nat → Rat
  floatPos : Nat

/-- `random.random()`: next unit-interval draw. -/
def nextFloat (r : Rng) : Rat × Rng :=
  (r.floats r.floatPos, { r with floatPos := r.floatPos + 1 })

/-- `random.randint(a, b)`: uniform integer in `[a, b]`; raises `ValueError`
when `b < a`, as in Python. -/
def randint (a b : Int) (r : Rng) : Except PyErr (Int × Rng) :=
  if b < a then .error .valueError
  else .ok (a + ((r.ints r.intPos % (b - a + 1).toNat : Nat) : Int),
            { r with intPos := r.intPos + 1 })

/-- Effective index of a Python slice bound `i` for a list of length `len`:
negative bounds count from the end, and out-of-range bounds clamp. -/
def pyBound (len : Nat) (i : Int) : Nat :=
  if i < 0 then ((len : Int) + i).toNat else min i.toNat len

/-- Python slice `xs[:i]`. -/
def pyTake (xs : List BusPassenger) (i : Int) : List BusPassenger :=
  xs.take (pyBound xs.length i)

/-- Python slice `xs[i:]`. -/
def pyDrop (xs : List BusPassenger) (i : Int) : List BusPassenger :=
  xs.drop (pyBound xs.length i)

/-- The complete state of `LinearBusRouteModel`: the `BusNetwork` container
fields plus the engine-owned spawn counter, the random-module state and the
standard-output log used by `update_stop`'s `print`. -/
structure LinearBusRouteModel where
  start : Int
  «end» : Int
  stops : List BusStop
  buses : List Bus
  rates : List (String × Rat)
  passenger_num : Option Nat
  rng : Rng
  printed : List Int

/-- The public constructor `BusNetwork.__init__` as used through
`LinearBusRouteModel(start, end, stops, buses, rates)`: the spawn counter
`passenger_num` is not assigned until `init` runs, and the stdout log starts
empty.  The ambient random-module state is passed in explicitly. -/
def mkLinearBusRouteModel (start «end» : Int) (stops : List BusStop)
    (buses : List Bus) (rates : List (String × Rat)) (rng : Rng) :
    LinearBusRouteModel :=
  { start := start, «end» := «end», stops := stops, buses := buses,
    rates := rates, passenger_num := none, rng := rng, printed := [] }

/-- The `leaving_passengers` list built by the partition loop of `stop_at`
(linear.py lines 154-161): onboard passengers whose destination is this stop,
in their prior onboard order. -/
def leaving_passengers (bus : Bus) (stop : BusStop) : List BusPassenger :=
  bus.passengers.filter fun p => p.destination == stop.name

/-- The `staying_passengers` list built by the partition loop of `stop_at`
(linear.py lines 154-161): onboard passengers staying aboard, in their prior
onboard order. -/
def staying_passengers (bus : Bus) (stop : BusStop) : List BusPassenger :=
  bus.passengers.filter fun p => !(p.destination == stop.name)

/-- The `boarding_passengers` list of `stop_at` (linear.py lines 163-166):
`stop.passengers[:capacity - len(staying)]` for non-negative capacity, the
whole queue otherwise. -/
def boarding_passengers (capacity : Int) (bus : Bus) (stop : BusStop) :
    List BusPassenger :=
  if 0 ≤ capacity then
    pyTake stop.passengers (capacity - (staying_passengers bus stop).length)
  else stop.passengers

/-- The queue left at the stop by `stop_at` (linear.py lines 170-171):
`stop.passengers[capacity - len(staying):]` for non-negative capacity, the
queue unchanged otherwise. -/
def queue_after (capacity : Int) (bus : Bus) (stop : BusStop) :
    List BusPassenger :=
  if 0 ≤ capacity then
    pyDrop stop.passengers (capacity - (staying_passengers bus stop).length)
  else stop.passengers

/-- `LinearBusRouteModel.stop_at` (linear.py lines 151-179): partition the
passengers on board into leaving and staying, compute the boarding slice of the
queue, rewrite the bus's and the stop's passenger lists, and emit the
stops/alights/boards events. -/
def stop_at (bus : Bus) (stop : BusStop) :
    Except PyErr (Bus × BusStop × List Event) :=
  match bus.capacity with
  | none => .error .attributeError
  | some capacity =>
    .ok ({ bus with passengers :=
             staying_passengers bus stop ++ boarding_passengers capacity bus stop },
         { stop with passengers := queue_after capacity bus stop },
         Event.stopsAt bus.name stop.name ::
           ((leaving_passengers bus stop).map
              (fun p => Event.alights p.name stop.name) ++
            (boarding_passengers capacity bus stop).map
              (fun p => Event.boards p.name stop.name)))

/-- One pass of the inner loop of `update_stop_passengers_patience`
(linear.py lines 146-148): `passenger.patience = max(passenger.patience - 1, 0)`
for each passenger queued at one stop; reading a missing `patience` attribute
raises `AttributeError`. -/
def decayAll : List BusPassenger → Except PyErr (List BusPassenger)
  | [] => .ok []
  | p :: ps =>
    match p.patience with
    | none => .error .attributeError
    | some v =>
      match decayAll ps with
      | .error e => .error e
      | .ok qs => .ok ({ p with patience := some (max (v - 1) 0) } :: qs)

/-- `LinearBusRouteModel.update_stop_passengers_patience` (linear.py lines
144-148): decay the patience of every passenger queued at every stop. -/
def update_stop_passengers_patience :
    List BusStop → Except PyErr (List BusStop)
  | [] => .ok []
  | st :: rest =>
    match decayAll st.passengers with
    | .error e => .error e
    | .ok ps =>
      match update_stop_passengers_patience rest with
      | .error e => .error e
      | .ok sts => .ok ({ st with passengers := ps } :: sts)

/-- The stop loop in `update_bus` (linear.py lines 122-127): a rightward bus
calls `stop_at` on every stop whose x-coordinate lies in `(old_x, new_x]`, in
stop iteration order, threading the bus through and rewriting the affected
stops in place. -/
def stopLoop (old_x new_x : Int) (bus : Bus) :
    List BusStop → Except PyErr (Bus × List BusStop × List Event)
  | [] => .ok (bus, [], [])
  | st :: rest =>
    if old_x < st.position.1 ∧ st.position.1 ≤ new_x then
      match stop_at bus st with
      | .error e => .error e
      | .ok (bus2, st2, ev) =>
        match stopLoop old_x new_x bus2 rest with
        | .error e => .error e
        | .ok (busF, restF, evR) => .ok (busF, st2 :: restF, ev ++ evR)
    else
      match stopLoop old_x new_x bus rest with
      | .error e => .error e
      | .ok (busF, restF, evR) => .ok (busF, st :: restF, evR)

/-- The speed resolution line of `update_bus` (linear.py line 113):
`speed = bus.speed if bus.speed > 0 else random.randint(1, bus.max_speed)`,
reading the `speed` attribute first and the `max_speed` attribute only in the
random branch. -/
def effective_speed (bus : Bus) (rng : Rng) : Except PyErr (Int × Rng) :=
  match bus.speed with
  | none => .error .attributeError
  | some sp =>
    if 0 < sp then .ok (sp, rng)
    else
      match bus.max_speed with
      | none => .error .attributeError
      | some ms => randint 1 ms rng

/-- `LinearBusRouteModel.update_bus` (linear.py lines 109-142): resolve the
effective speed, move the bus horizontally, process the stops it passes
(rightward direction only), decay the patience of all queued passengers, and
reverse direction with a `turns` event when the new position leaves
`[start, end]` (the position is not clamped). -/
def update_bus (m : LinearBusRouteModel) (bus : Bus) :
    Except PyErr (LinearBusRouteModel × Bus × List Event) :=
    match effective_speed bus m.rng with
    | .error e => .error e
    | .ok (speed, rng1) =>
      let old_x := bus.position.1
      let old_y := bus.position.2
      let new_x := old_x + speed * bus.direction
      let bus1 : Bus := { bus with position := (new_x, old_y) }
      let loopRes :=
        if bus.direction = 1 then stopLoop old_x new_x bus1 m.stops
        else .ok (bus1, m.stops, [])
      match loopRes with
      | .error e => .error e
      | .ok (bus2, stops1, ev1) =>
        match update_stop_passengers_patience stops1 with
        | .error e => .error e
        | .ok stops2 =>
          if ¬(m.start ≤ new_x ∧ new_x ≤ m.«end») then
            .ok ({ m with rng := rng1, stops := stops2 },
                 { bus2 with direction := -bus2.direction },
                 ev1 ++ [Event.turns bus.name])
          else .ok ({ m with rng := rng1, stops := stops2 }, bus2, ev1)

/-- `LinearBusRouteModel.update_stop` (linear.py lines 181-199): when the stop
has a configured rate that exceeds a fresh uniform draw, print one extra
integer draw in `[0, len(stops)]`, pick the destination with a second draw in
`[0, len(stops) - 1]`, construct the passenger `'random' + counter`, append it
to the back of the queue and emit its `waits` event. -/
def update_stop (m : LinearBusRouteModel) (stop : BusStop) :
    Except PyErr (LinearBusRouteModel × BusStop × List Event) :=
  match m.rates.lookup stop.name with
  | none => .ok (m, stop, [])
  | some rate =>
    let (u, rng1) := nextFloat m.rng
    if rate > u then
      match randint 0 (m.stops.length : Int) rng1 with
      | .error e => .error e
      | .ok (d0, rng2) =>
        let printed2 := m.printed ++ [d0]
        match randint 0 ((m.stops.length : Int) - 1) rng2 with
        | .error e => .error e
        | .ok (d1, rng3) =>
          match m.stops.get? d1.toNat with
          | none => .error .indexError
          | some destStop =>
            match m.passenger_num with
            | none => .error .attributeError
            | some n =>
              let name := "random" ++ toString n
              let passenger := mkBusPassenger name stop.name destStop.name
              .ok ({ m with rng := rng3, printed := printed2,
                            passenger_num := some (n + 1) },
                   { stop with passengers := stop.passengers ++ [passenger] },
                   [Event.waits name stop.name])
    else .ok ({ m with rng := rng1 }, stop, [])

/-- The bus loop of `update` (linear.py lines 101-102), threading the mutable
model state through the per-bus updates. -/
def busLoop (m : LinearBusRouteModel) :
    List Bus → Except PyErr (LinearBusRouteModel × List Bus × List Event)
  | [] => .ok (m, [], [])
  | b :: rest =>
    match update_bus m b with
    | .error e => .error e
    | .ok (m2, b2, ev) =>
      match busLoop m2 rest with
      | .error e => .error e
      | .ok (mF, bs, evR) => .ok (mF, b2 :: bs, ev ++ evR)

/-- The stop loop of `update` (linear.py lines 104-105). -/
def stopPhase (m : LinearBusRouteModel) :
    List BusStop → Except PyErr (LinearBusRouteModel × List BusStop × List Event)
  | [] => .ok (m, [], [])
  | st :: rest =>
    match update_stop m st with
    | .error e => .error e
    | .ok (m2, st2, ev) =>
      match stopPhase m2 rest with
      | .error e => .error e
      | .ok (mF, sts, evR) => .ok (mF, st2 :: sts, ev ++ evR)

/-- `LinearBusRouteModel.update` (linear.py lines 79-107): update every bus in
order, then every stop in order, concatenating the emitted events. -/
def update (m : LinearBusRouteModel) :
    Except PyErr (LinearBusRouteModel × List Event) :=
  match busLoop m m.buses with
  | .error e => .error e
  | .ok (m1, buses2, ev1) =>
    let m2 := { m1 with buses := buses2 }
    match stopPhase m2 m2.stops with
    | .error e => .error e
    | .ok (m3, stops2, ev2) => .ok ({ m3 with stops := stops2 }, ev1 ++ ev2)

/-- `LinearBusRouteModel.init` (linear.py lines 51-77): reset the spawn
counter and report the initial `waits` and `boards` events, appending one
event per queued passenger per stop and then one per onboard passenger per
bus. -/
def init (m : LinearBusRouteModel) : LinearBusRouteModel × List Event :=
  let ev1 := m.stops.foldl
    (fun acc stop => stop.passengers.foldl
      (fun a p => a ++ [Event.waits p.name stop.name]) acc) []
  let ev2 := m.buses.foldl
    (fun acc bus => bus.passengers.foldl
      (fun a p => a ++ [Event.boards p.name bus.name]) acc) ev1
  ({ m with passenger_num := some 0 }, ev2)

/-- Number of `turns` events in an event list. -/
def countTurns (ev : List Event) : Nat :=
  (ev.filter fun e => match e with | .turns _ => true | _ => false).length

/-- Every passenger queued at every stop carries a `patience` attribute; the
patience-decay pass needs this to run without raising. -/
def patSet (stops : List BusStop) : Prop :=
  ∀ st ∈ stops, ∀ p ∈ st.passengers, p.patience ≠ none

/-! Helper lemmas. -/

/-- Equation for `stop_at` once the capacity attribute is present. -/
lemma stop_at_eq (bus : Bus) (stop : BusStop) (c : Int) (hc : bus.capacity = some c) :
    stop_at bus stop = .ok
      ({ bus with passengers :=
           staying_passengers bus stop ++ boarding_passengers c bus stop },
       { stop with passengers := queue_after c bus stop },
       Event.stopsAt bus.name stop.name ::
         ((leaving_passengers bus stop).map
            (fun p => Event.alights p.name stop.name) ++
          (boarding_passengers c bus stop).map
            (fun p => Event.boards p.name stop.name))) := by
  unfold stop_at
  rw [hc]

/-- A slice bound that is zero, or negative with magnitude at least the list
length, has effective index zero. -/
lemma pyBound_eq_zero (len : Nat) (i : Int)
    (h : i = 0 ∨ (i < 0 ∧ (len : Int) ≤ -i)) : pyBound len i = 0 := by
  unfold pyBound
  rcases h with h | ⟨h1, h2⟩
  · subst h
    simp
  · rw [if_pos h1]
    omega


lemma waits_fold_one (stname : String) (ps : List BusPassenger) (acc : List Event) :
    ps.foldl (fun a p => a ++ [Event.waits p.name stname]) acc
      = acc ++ ps.map fun p => Event.waits p.name stname := by
  induction ps generalizing acc with
  | nil => simp
  | cons p rest ih => simp [ih]

lemma boards_fold_one (busname : String) (ps : List BusPassenger) (acc : List Event) :
    ps.foldl (fun a p => a ++ [Event.boards p.name busname]) acc
      = acc ++ ps.map fun p => Event.boards p.name busname := by
  induction ps generalizing acc with
  | nil => simp
  | cons p rest ih => simp [ih]

lemma waits_fold (stops : List BusStop) (acc : List Event) :
    stops.foldl (fun acc2 stop => stop.passengers.foldl
        (fun a p => a ++ [Event.waits p.name stop.name]) acc2) acc
      = acc ++ (stops.map fun st =>
          st.passengers.map fun p => Event.waits p.name st.name).flatten := by
  induction stops generalizing acc with
  | nil => simp
  | cons st rest ih =>
    rw [List.foldl_cons, ih, waits_fold_one]
    simp

lemma boards_fold (buses : List Bus) (acc : List Event) :
    buses.foldl (fun acc2 bus => bus.passengers.foldl
        (fun a p => a ++ [Event.boards p.name bus.name]) acc2) acc
      = acc ++ (buses.map fun b =>
          b.passengers.map fun p => Event.boards p.name b.name).flatten := by
  induction buses generalizing acc with
  | nil => simp
  | cons b rest ih =>
    rw [List.foldl_cons, ih, boards_fold_one]
    simp

/-! Claim theorems. -/

/-- C1: the claim says that an unlimited-capacity (negative-capacity) bus
passing a stop boards everyone and leaves the stop's queue empty.  The code
instead leaves the queue unchanged in the negative-capacity branch, so the
boarded passenger `Q` ends up both aboard the bus and still queued at the
stop: evaluating `stop_at` on a capacity `-1` bus and a one-passenger stop
returns the bus carrying `Q`, the stop still holding `Q`, and the
stops/boards events. -/
theorem stop_at_unlimited_capacity_keeps_queue :
    stop_at { mkBus "B" (0, 0) 1 [] with capacity := some (-1) }
        (mkBusStop "S" (0, 0) [mkBusPassenger "Q" "S" "T"]) =
      .ok ({ mkBus "B" (0, 0) 1 [] with capacity := some (-1),
                                        passengers := [mkBusPassenger "Q" "S" "T"] },
           mkBusStop "S" (0, 0) [mkBusPassenger "Q" "S" "T"],
           [Event.stopsAt "B" "S", Event.boards "Q" "S"]) := by
  rfl

/-- C3: the claim says one `update()` call decreases a queued passenger's
positive patience by exactly 1 regardless of how many vehicles are in the
network.  The code calls `update_stop_passengers_patience` once per bus inside
the per-bus loop, so with two buses a patience of 2 drops to 0 in a single
tick instead of to 1.  (Both buses here move from x = 0 to x = 1, crossing no
stop and staying inside the route.) -/
theorem update_decays_patience_once_per_bus :
    (match update (mkLinearBusRouteModel 0 100
        [mkBusStop "S" (50, 0) [{ mkBusPassenger "R" "S" "T" with patience := some 2 }]]
        [{ mkBus "b1" (0, 0) 1 [] with speed := some 1, max_speed := some 10,
                                        capacity := some 5 },
         { mkBus "b2" (0, 0) 1 [] with speed := some 1, max_speed := some 10,
                                        capacity := some 5 }]
        [] ⟨fun _ => 0, 0, fun _ => 0, 0⟩) with
     | .ok (m2, _) => m2.stops.map fun st => st.passengers.map fun p => p.patience
     | .error _ => []) = [[some 0]] := by
  rfl

/-- C4: the claim says a network assembled from the public constructors and
initialised with `init()` completes every `update()` without raising, because
each vehicle carries the `speed`, `max_speed` and `capacity` fields and each
passenger the `patience` field that the tick update reads.  In the code
`Bus.__init__` assigns none of those three attributes and
`BusPassenger.__init__` never assigns `patience`, so the very scenario of
`update`'s own doctest (bus `'56'` at x = -1 approaching `'East St'`) raises
`AttributeError` at the first `bus.speed` read instead of returning the
documented events. -/
theorem update_raises_attribute_error_on_constructed_network :
    update ((init (mkLinearBusRouteModel 0 100
        [mkBusStop "East St" (0, 0) [mkBusPassenger "Sally" "East St" "West St"]]
        [mkBus "56" (-1, 0) 1 []]
        [] ⟨fun _ => 0, 0, fun _ => 0, 0⟩)).1) = .error .attributeError := by
  rfl

/-- C9: `init()` resets the spawn counter to 0 and returns one `waits` event
per passenger queued at a stop, in stop iteration order then per-stop queue
order, followed by one `boards` event per passenger aboard a bus, in bus
iteration order then per-bus passenger order, leaving every stop queue and
every bus passenger list untouched. -/
theorem init_resets_counter_and_reports_initial_events (m : LinearBusRouteModel) :
    init m = ({ m with passenger_num := some 0 },
      (m.stops.map fun st => st.passengers.map fun p => Event.waits p.name st.name).flatten
        ++ (m.buses.map fun b => b.passengers.map fun p => Event.boards p.name b.name).flatten) := by
  show ({ m with passenger_num := some 0 },
      m.buses.foldl _ (m.stops.foldl _ [])) = _
  rw [boards_fold, waits_fold]
  simp

/-- A nonpositive boarding count whose magnitude covers the whole queue makes
the boarding slice empty and leaves the queue unchanged. -/
lemma boarding_nil_queue_unchanged (bus : Bus) (stop : BusStop) (c : Int)
    (h0 : 0 ≤ c)
    (h : c - ((staying_passengers bus stop).length : Int) = 0 ∨
         (c - ((staying_passengers bus stop).length : Int) < 0 ∧
          (stop.passengers.length : Int) ≤
            -(c - ((staying_passengers bus stop).length : Int)))) :
    boarding_passengers c bus stop = [] ∧ queue_after c bus stop = stop.passengers := by
  have hb : pyBound stop.passengers.length
      (c - ((staying_passengers bus stop).length : Int)) = 0 :=
    pyBound_eq_zero _ _ h
  constructor
  · rw [boarding_passengers, if_pos h0, pyTake, hb]
    simp
  · rw [queue_after, if_pos h0, pyDrop, hb]
    simp

/-- C2 counterexample: for the claim "if boardingCount = capacity - len(staying)
is 0 or negative, then no passenger boards and the queue is unchanged", take a
bus of capacity 1 already carrying two staying passengers (boardingCount = -1)
at a stop with two queued passengers.  Python's negative slice
`stop.passengers[:-1]` boards `Q1` (all but the last one) and shrinks the queue
to `[Q2]`, so the vehicle does not end with exactly the staying passengers. -/
theorem stop_at_negative_count_still_boards :
    ((1 : Int) - 2 < 0) ∧
    stop_at { mkBus "B" (0, 0) 1 [mkBusPassenger "P1" "A" "T", mkBusPassenger "P2" "A" "T"]
                with capacity := some 1 }
        (mkBusStop "S" (0, 0) [mkBusPassenger "Q1" "S" "T", mkBusPassenger "Q2" "S" "T"]) =
      .ok ({ mkBus "B" (0, 0) 1 [mkBusPassenger "P1" "A" "T", mkBusPassenger "P2" "A" "T"]
               with capacity := some 1,
                    passengers := [mkBusPassenger "P1" "A" "T", mkBusPassenger "P2" "A" "T",
                                   mkBusPassenger "Q1" "S" "T"] },
           mkBusStop "S" (0, 0) [mkBusPassenger "Q2" "S" "T"],
           [Event.stopsAt "B" "S", Event.boards "Q1" "S"]) ∧
    [mkBusPassenger "P1" "A" "T", mkBusPassenger "P2" "A" "T", mkBusPassenger "Q1" "S" "T"] ≠
      [mkBusPassenger "P1" "A" "T", mkBusPassenger "P2" "A" "T"] :=
  ⟨by decide, rfl, by decide⟩

/-- C2 (amended): for a vehicle with non-negative capacity, if
boardingCount = capacity - len(staying) is 0, or is negative with at most
|boardingCount| passengers waiting, then no passenger boards: the vehicle ends
`stop_at` with exactly the staying passengers and the stop's queue is
unchanged.  (When boardingCount is negative and more passengers wait, Python's
negative slice boards all but the last |boardingCount| of them, as the
counterexample shows.) -/
theorem stop_at_no_boarding_when_no_room (bus : Bus) (stop : BusStop) (c : Int)
    (hc : bus.capacity = some c) (h0 : 0 ≤ c)
    (h : c - ((staying_passengers bus stop).length : Int) = 0 ∨
         (c - ((staying_passengers bus stop).length : Int) < 0 ∧
          (stop.passengers.length : Int) ≤
            -(c - ((staying_passengers bus stop).length : Int)))) :
    stop_at bus stop = .ok
      ({ bus with passengers := staying_passengers bus stop },
       stop,
       Event.stopsAt bus.name stop.name ::
         (leaving_passengers bus stop).map (fun p => Event.alights p.name stop.name)) := by
  obtain ⟨hb, hq⟩ := boarding_nil_queue_unchanged bus stop c h0 h
  rw [stop_at_eq bus stop c hc, hb, hq]
  simp

/-- Witness for C2's amended theorem: capacity 1, two staying passengers
(boardingCount = -1) and a single queued passenger, which is within
|boardingCount|, so nobody boards and the queue is untouched. -/
theorem stop_at_no_boarding_when_no_room_witness :
    stop_at { mkBus "B" (0, 0) 1 [mkBusPassenger "P1" "A" "T", mkBusPassenger "P2" "A" "T"]
                with capacity := some 1 }
        (mkBusStop "S" (0, 0) [mkBusPassenger "Q1" "S" "T"]) =
      .ok ({ mkBus "B" (0, 0) 1 [mkBusPassenger "P1" "A" "T", mkBusPassenger "P2" "A" "T"]
               with capacity := some 1,
                    passengers := [mkBusPassenger "P1" "A" "T", mkBusPassenger "P2" "A" "T"] },
           mkBusStop "S" (0, 0) [mkBusPassenger "Q1" "S" "T"],
           [Event.stopsAt "B" "S"]) :=
  stop_at_no_boarding_when_no_room _ _ 1 rfl (by decide) (by decide)

/-- C5 counterexample: a bus with capacity 0 that arrives already carrying two
staying passengers boards a further passenger through the negative slice
`stop.passengers[:-2]`, ending `stop_at` with three passengers aboard, which
violates `len(vehicle.passengers) <= 0`. -/
theorem stop_at_capacity_bound_violated :
    (match stop_at { mkBus "B" (0, 0) 1
          [mkBusPassenger "P1" "A" "T", mkBusPassenger "P2" "A" "T"]
          with capacity := some 0 }
        (mkBusStop "S" (0, 0) [mkBusPassenger "Q1" "S" "T", mkBusPassenger "Q2" "S" "T",
                               mkBusPassenger "Q3" "S" "T"]) with
     | .ok (b, _, _) => b.passengers.length
     | .error _ => 0) = 3 ∧ ¬((3 : Int) ≤ 0) :=
  ⟨rfl, by decide⟩

/-- C5 (amended): for a vehicle with non-negative capacity `c` that arrives at
the stop with at most `c` passengers aboard, `stop_at` keeps
`len(vehicle.passengers) <= c`: the bound is preserved by every resolution,
though not re-established for a vehicle that was already over capacity (see
the counterexample). -/
theorem stop_at_preserves_capacity_bound (bus : Bus) (stop : BusStop) (c : Int)
    (hc : bus.capacity = some c) (h0 : 0 ≤ c)
    (hlen : (bus.passengers.length : Int) ≤ c) :
    ∃ bus2 stop2 ev, stop_at bus stop = .ok (bus2, stop2, ev) ∧
      (bus2.passengers.length : Int) ≤ c := by
  refine ⟨_, _, _, stop_at_eq bus stop c hc, ?_⟩
  have h1 : (staying_passengers bus stop).length ≤ bus.passengers.length :=
    List.length_filter_le _ _
  simp only [boarding_passengers, if_pos h0, pyTake, pyBound, List.length_append,
    List.length_take]
  split
  · omega
  · omega

/-- Witness for C5's amended theorem: a bus of capacity 2 carrying one staying
passenger at a stop with three queued passengers stays within capacity. -/
theorem stop_at_preserves_capacity_bound_witness :
    ∃ bus2 stop2 ev,
      stop_at { mkBus "B" (0, 0) 1 [mkBusPassenger "P1" "A" "T"] with capacity := some 2 }
          (mkBusStop "S" (0, 0) [mkBusPassenger "Q1" "S" "T", mkBusPassenger "Q2" "S" "T",
                                 mkBusPassenger "Q3" "S" "T"]) =
        .ok (bus2, stop2, ev) ∧
      (bus2.passengers.length : Int) ≤ 2 :=
  stop_at_preserves_capacity_bound _ _ 2 rfl (by decide) (by decide)

/-- C6: every `stop_at` resolution emits, in order, one stops event, one
alights event per leaving passenger in prior onboard order, then one boards
event per boarding passenger in boarding order; the boarding passengers are a
front segment of the stop's queue (FIFO), the bus ends with the staying
passengers followed by the boarders, and the unboarded remainder of the queue
stays queued in order (it is a suffix of the resulting queue). -/
theorem stop_at_event_order_and_fifo (bus : Bus) (stop : BusStop) (c : Int)
    (hc : bus.capacity = some c) :
    ∃ boarding k bus2 stop2,
      stop_at bus stop = .ok (bus2, stop2,
        Event.stopsAt bus.name stop.name ::
          ((leaving_passengers bus stop).map (fun p => Event.alights p.name stop.name) ++
           boarding.map (fun p => Event.boards p.name stop.name))) ∧
      boarding = stop.passengers.take k ∧
      bus2.passengers = staying_passengers bus stop ++ boarding ∧
      stop.passengers.drop k <:+ stop2.passengers := by
  by_cases h0 : 0 ≤ c
  · refine ⟨boarding_passengers c bus stop,
      pyBound stop.passengers.length (c - ((staying_passengers bus stop).length : Int)),
      _, _, stop_at_eq bus stop c hc, ?_, rfl, ?_⟩
    · rw [boarding_passengers, if_pos h0]
      rfl
    · show stop.passengers.drop _ <:+ queue_after c bus stop
      rw [queue_after, if_pos h0]
      exact List.suffix_refl _
  · refine ⟨boarding_passengers c bus stop, stop.passengers.length,
      _, _, stop_at_eq bus stop c hc, ?_, rfl, ?_⟩
    · rw [boarding_passengers, if_neg h0, List.take_length]
    · show stop.passengers.drop _ <:+ queue_after c bus stop
      rw [queue_after, if_neg h0, List.drop_length]
      exact ⟨stop.passengers, List.append_nil _⟩

/-- Witness for C6: a stop with queue [A, B, C] and an empty bus with room for
two, instantiating the event-order and FIFO theorem. -/
theorem stop_at_event_order_and_fifo_witness :
    ∃ boarding k bus2 stop2,
      stop_at { mkBus "V" (0, 0) 1 [] with capacity := some 2 }
          (mkBusStop "S" (0, 0) [mkBusPassenger "A" "S" "T", mkBusPassenger "B" "S" "T",
                                 mkBusPassenger "C" "S" "T"]) =
        .ok (bus2, stop2,
          Event.stopsAt "V" "S" ::
            ((leaving_passengers { mkBus "V" (0, 0) 1 [] with capacity := some 2 }
                (mkBusStop "S" (0, 0) [mkBusPassenger "A" "S" "T", mkBusPassenger "B" "S" "T",
                                       mkBusPassenger "C" "S" "T"])).map
               (fun p => Event.alights p.name "S") ++
             boarding.map (fun p => Event.boards p.name "S"))) ∧
      boarding = [mkBusPassenger "A" "S" "T", mkBusPassenger "B" "S" "T",
                  mkBusPassenger "C" "S" "T"].take k ∧
      bus2.passengers = staying_passengers { mkBus "V" (0, 0) 1 [] with capacity := some 2 }
          (mkBusStop "S" (0, 0) [mkBusPassenger "A" "S" "T", mkBusPassenger "B" "S" "T",
                                 mkBusPassenger "C" "S" "T"]) ++ boarding ∧
      [mkBusPassenger "A" "S" "T", mkBusPassenger "B" "S" "T",
       mkBusPassenger "C" "S" "T"].drop k <:+ stop2.passengers :=
  stop_at_event_order_and_fifo _ _ 2 rfl

lemma countTurns_append (a b : List Event) :
    countTurns (a ++ b) = countTurns a + countTurns b := by
  simp [countTurns, List.filter_append]

lemma countTurns_map_alights (l : List BusPassenger) (s : String) :
    countTurns (l.map fun p => Event.alights p.name s) = 0 := by
  induction l with
  | nil => rfl
  | cons p rest ih => simp [countTurns, List.filter_cons]

lemma countTurns_map_boards (l : List BusPassenger) (s : String) :
    countTurns (l.map fun p => Event.boards p.name s) = 0 := by
  induction l with
  | nil => rfl
  | cons p rest ih => simp [countTurns, List.filter_cons]

lemma countTurns_stop_events (bus : Bus) (stop : BusStop) (c : Int) :
    countTurns (Event.stopsAt bus.name stop.name ::
      ((leaving_passengers bus stop).map (fun p => Event.alights p.name stop.name) ++
       (boarding_passengers c bus stop).map (fun p => Event.boards p.name stop.name))) = 0 := by
  have h1 := countTurns_map_alights (leaving_passengers bus stop) stop.name
  have h2 := countTurns_map_boards (boarding_passengers c bus stop) stop.name
  simp [countTurns, List.filter_cons, List.filter_append] at h1 h2 ⊢

lemma queue_after_subset (c : Int) (bus : Bus) (stop : BusStop) :
    ∀ p ∈ queue_after c bus stop, p ∈ stop.passengers := by
  unfold queue_after
  split
  · exact fun p hp => List.drop_subset _ _ hp
  · exact fun p hp => hp

lemma decayAll_ok (ps : List BusPassenger)
    (hp : ∀ p ∈ ps, p.patience ≠ none) : ∃ qs, decayAll ps = .ok qs := by
  induction ps with
  | nil => exact ⟨[], rfl⟩
  | cons p rest ih =>
    obtain ⟨qs, hqs⟩ := ih (fun q hq => hp q (List.mem_cons_of_mem _ hq))
    cases hv : p.patience with
    | none => exact absurd hv (hp p (List.mem_cons_self _ _))
    | some v =>
      exact ⟨{ p with patience := some (max (v - 1) 0) } :: qs,
        by simp [decayAll, hv, hqs]⟩

lemma patience_pass_ok (stops : List BusStop) (hp : patSet stops) :
    ∃ stops2, update_stop_passengers_patience stops = .ok stops2 := by
  induction stops with
  | nil => exact ⟨[], rfl⟩
  | cons st rest ih =>
    obtain ⟨stops2, hrest⟩ := ih (fun s hs => hp s (List.mem_cons_of_mem _ hs))
    obtain ⟨qs, hqs⟩ := decayAll_ok st.passengers (hp st (List.mem_cons_self _ _))
    exact ⟨{ st with passengers := qs } :: stops2,
      by simp [update_stop_passengers_patience, hqs, hrest]⟩

lemma effective_speed_ok (bus : Bus) (rng : Rng) (s ms : Int)
    (hs : bus.speed = some s) (hms : bus.max_speed = some ms) (hms1 : 1 ≤ ms) :
    ∃ eff rng2, effective_speed bus rng = .ok (eff, rng2) ∧
      (0 < s → eff = s) ∧ 1 ≤ eff ∧ (s ≤ 0 → eff ≤ ms) := by
  unfold effective_speed
  rw [hs]
  dsimp only
  by_cases hsp : 0 < s
  · rw [if_pos hsp]
    exact ⟨s, rng, rfl, fun _ => rfl, by omega, fun hle => absurd hsp (by omega)⟩
  · rw [if_neg hsp, hms]
    dsimp only
    unfold randint
    rw [if_neg (by omega : ¬ ms < 1)]
    refine ⟨_, _, rfl, fun h => absurd h hsp, ?_, fun _ => ?_⟩
    · have h0 : (0 : Int) ≤ ((rng.ints rng.intPos % (ms - 1 + 1).toNat : Nat) : Int) :=
        Int.natCast_nonneg _
      omega
    · have hlt : rng.ints rng.intPos % (ms - 1 + 1).toNat < (ms - 1 + 1).toNat :=
        Nat.mod_lt _ (by omega)
      omega

lemma stopLoop_cons_cross (old_x new_x : Int) (bus b2 bF : Bus)
    (st st2 : BusStop) (rest restF : List BusStop) (ev1 evR : List Event)
    (h : old_x < st.position.1 ∧ st.position.1 ≤ new_x)
    (hstop : stop_at bus st = .ok (b2, st2, ev1))
    (hrest : stopLoop old_x new_x b2 rest = .ok (bF, restF, evR)) :
    stopLoop old_x new_x bus (st :: rest) = .ok (bF, st2 :: restF, ev1 ++ evR) := by
  simp [stopLoop, if_pos h, hstop, hrest]

lemma stopLoop_cons_skip (old_x new_x : Int) (bus bF : Bus)
    (st : BusStop) (rest restF : List BusStop) (evR : List Event)
    (h : ¬(old_x < st.position.1 ∧ st.position.1 ≤ new_x))
    (hrest : stopLoop old_x new_x bus rest = .ok (bF, restF, evR)) :
    stopLoop old_x new_x bus (st :: rest) = .ok (bF, st :: restF, evR) := by
  simp [stopLoop, if_neg h, hrest]

lemma stopLoop_ok (old_x new_x c : Int) (stops : List BusStop) :
    ∀ bus : Bus, bus.capacity = some c →
      ∃ ps stops2 ev,
        stopLoop old_x new_x bus stops = .ok ({ bus with passengers := ps }, stops2, ev) ∧
        countTurns ev = 0 ∧
        (patSet stops → patSet stops2) := by
  induction stops with
  | nil =>
    intro bus hc
    exact ⟨bus.passengers, [], [], rfl, rfl, fun _ s hs => absurd hs (List.not_mem_nil s)⟩
  | cons st rest ih =>
    intro bus hc
    by_cases hcross : old_x < st.position.1 ∧ st.position.1 ≤ new_x
    · obtain ⟨ps, stops2, ev, hloop, hturn, hpat⟩ :=
        ih { bus with passengers :=
               staying_passengers bus st ++ boarding_passengers c bus st } hc
      refine ⟨ps, { st with passengers := queue_after c bus st } :: stops2,
        (Event.stopsAt bus.name st.name ::
          ((leaving_passengers bus st).map (fun p => Event.alights p.name st.name) ++
           (boarding_passengers c bus st).map (fun p => Event.boards p.name st.name))) ++ ev,
        ?_, ?_, ?_⟩
      · exact stopLoop_cons_cross old_x new_x bus _ _ st _ rest _ _ _ hcross
          (stop_at_eq bus st c hc) hloop
      · rw [countTurns_append, countTurns_stop_events, hturn]
      · intro hps s hsmem p hpmem
        rcases List.mem_cons.mp hsmem with hhead | htail
        · subst hhead
          exact hps st (List.mem_cons_self _ _) p (queue_after_subset c bus st p hpmem)
        · exact hpat (fun s2 hs2 => hps s2 (List.mem_cons_of_mem _ hs2)) s htail p hpmem
    · obtain ⟨ps, stops2, ev, hloop, hturn, hpat⟩ := ih bus hc
      refine ⟨ps, st :: stops2, ev, ?_, hturn, ?_⟩
      · exact stopLoop_cons_skip old_x new_x bus _ st rest _ ev hcross hloop
      · intro hps s hsmem p hpmem
        rcases List.mem_cons.mp hsmem with hhead | htail
        · subst hhead
          exact hps s (List.mem_cons_self _ _) p hpmem
        · exact hpat (fun s2 hs2 => hps s2 (List.mem_cons_of_mem _ hs2)) s htail p hpmem

lemma update_bus_eq (m : LinearBusRouteModel) (bus busMid : Bus) (eff : Int)
    (rng2 : Rng) (stops1 stops2 : List BusStop) (ev1 : List Event)
    (heff : effective_speed bus m.rng = .ok (eff, rng2))
    (hloop : (if bus.direction = 1 then
        stopLoop bus.position.1 (bus.position.1 + eff * bus.direction)
          { bus with position := (bus.position.1 + eff * bus.direction, bus.position.2) }
          m.stops
      else .ok ({ bus with
          position := (bus.position.1 + eff * bus.direction, bus.position.2) },
        m.stops, [])) = .ok (busMid, stops1, ev1))
    (hdecay : update_stop_passengers_patience stops1 = .ok stops2) :
    update_bus m bus =
      if ¬(m.start ≤ bus.position.1 + eff * bus.direction ∧
           bus.position.1 + eff * bus.direction ≤ m.«end») then
        .ok ({ m with rng := rng2, stops := stops2 },
             { busMid with direction := -busMid.direction },
             ev1 ++ [Event.turns bus.name])
      else .ok ({ m with rng := rng2, stops := stops2 }, busMid, ev1) := by
  unfold update_bus
  rw [heff]
  dsimp only
  rw [hloop]
  dsimp only
  rw [hdecay]

/-- C7: for a vehicle whose attributes are set and whose route stops all hold
patience-carrying passengers, one `update_bus` pass moves the bus by the
effective speed (the configured speed when positive, otherwise the random
draw, which lies in `[1, max_speed]`); if the new position falls strictly
outside `[start, end]` the direction is reversed and exactly one `turns` event
is emitted that tick, with the position kept at the overshoot value rather than
clamped, and if the new position lies within `[start, end]` the direction is
kept and no `turns` event is emitted. -/
theorem update_bus_turnaround (m : LinearBusRouteModel) (bus : Bus) (s ms c : Int)
    (hs : bus.speed = some s) (hms : bus.max_speed = some ms) (hms1 : 1 ≤ ms)
    (hc : bus.capacity = some c) (hp : patSet m.stops) :
    ∃ m2 bus2 ev eff,
      update_bus m bus = .ok (m2, bus2, ev) ∧
      (0 < s → eff = s) ∧ 1 ≤ eff ∧ (s ≤ 0 → eff ≤ ms) ∧
      bus2.position = (bus.position.1 + eff * bus.direction, bus.position.2) ∧
      (¬(m.start ≤ bus.position.1 + eff * bus.direction ∧
           bus.position.1 + eff * bus.direction ≤ m.«end») →
         bus2.direction = -bus.direction ∧ countTurns ev = 1) ∧
      ((m.start ≤ bus.position.1 + eff * bus.direction ∧
           bus.position.1 + eff * bus.direction ≤ m.«end») →
         bus2.direction = bus.direction ∧ countTurns ev = 0) := by
  obtain ⟨eff, rng2, heff, heffs, heff1, heffms⟩ :=
    effective_speed_ok bus m.rng s ms hs hms hms1
  have hload : ∃ busMid stops1 ev1,
      (if bus.direction = 1 then
         stopLoop bus.position.1 (bus.position.1 + eff * bus.direction)
           { bus with position := (bus.position.1 + eff * bus.direction, bus.position.2) }
           m.stops
       else .ok ({ bus with
           position := (bus.position.1 + eff * bus.direction, bus.position.2) },
         m.stops, [])) = .ok (busMid, stops1, ev1) ∧
      countTurns ev1 = 0 ∧ patSet stops1 ∧
      busMid.position = (bus.position.1 + eff * bus.direction, bus.position.2) ∧
      busMid.direction = bus.direction := by
    by_cases hdir : bus.direction = 1
    · rw [if_pos hdir]
      obtain ⟨ps, stops1, ev1, hl, ht, hpt⟩ :=
        stopLoop_ok bus.position.1 (bus.position.1 + eff * bus.direction) c m.stops
          { bus with position := (bus.position.1 + eff * bus.direction, bus.position.2) }
          hc
      exact ⟨_, stops1, ev1, hl, ht, hpt hp, rfl, rfl⟩
    · rw [if_neg hdir]
      exact ⟨_, m.stops, [], rfl, rfl, hp, rfl, rfl⟩
  obtain ⟨busMid, stops1, ev1, hloop, hturn0, hpat1, hpos, hdirMid⟩ := hload
  obtain ⟨stops2, hdecay⟩ := patience_pass_ok stops1 hpat1
  have hub := update_bus_eq m bus busMid eff rng2 stops1 stops2 ev1 heff hloop hdecay
  by_cases hbound : m.start ≤ bus.position.1 + eff * bus.direction ∧
      bus.position.1 + eff * bus.direction ≤ m.«end»
  · rw [hub, if_neg (not_not_intro hbound)]
    exact ⟨_, busMid, ev1, eff, rfl, heffs, heff1, heffms, hpos,
      fun hn => absurd hbound hn, fun _ => ⟨hdirMid, hturn0⟩⟩
  · rw [hub, if_pos hbound]
    refine ⟨_, _, _, eff, rfl, heffs, heff1, heffms, hpos, fun _ => ⟨?_, ?_⟩,
      fun hb => absurd hb hbound⟩
    · show -busMid.direction = -bus.direction
      rw [hdirMid]
    · rw [countTurns_append, hturn0]
      rfl

/-- Witness for C7: on a route from 0 to 10, a bus at x = 8 with direction 1,
speed 5 and no stops moves to x = 13 outside the route, reverses direction and
emits one `turns` event. -/
theorem update_bus_turnaround_witness :
    ∃ m2 bus2 ev eff,
      update_bus (mkLinearBusRouteModel 0 10 []
          [{ mkBus "B" (8, 0) 1 [] with speed := some 5, max_speed := some 10,
                                        capacity := some 3 }]
          [] ⟨fun _ => 0, 0, fun _ => 0, 0⟩)
        { mkBus "B" (8, 0) 1 [] with speed := some 5, max_speed := some 10,
                                     capacity := some 3 } = .ok (m2, bus2, ev) ∧
      (0 < (5 : Int) → eff = 5) ∧ 1 ≤ eff ∧ ((5 : Int) ≤ 0 → eff ≤ 10) ∧
      bus2.position = (8 + eff * 1, 0) ∧
      (¬((0 : Int) ≤ 8 + eff * 1 ∧ 8 + eff * 1 ≤ 10) →
         bus2.direction = -1 ∧ countTurns ev = 1) ∧
      (((0 : Int) ≤ 8 + eff * 1 ∧ 8 + eff * 1 ≤ 10) →
         bus2.direction = 1 ∧ countTurns ev = 0) :=
  update_bus_turnaround _ _ 5 10 3 rfl rfl (by decide) rfl
    (fun st hst => absurd hst (List.not_mem_nil st))

lemma update_stop_spawn_eq (m : LinearBusRouteModel) (stop : BusStop)
    (n : Nat) (r : Rat)
    (hn : m.passenger_num = some n)
    (hr : m.rates.lookup stop.name = some r)
    (hu : r > m.rng.floats m.rng.floatPos)
    (hne : m.stops ≠ []) :
    ∃ destStop,
      m.stops.get? (m.rng.ints (m.rng.intPos + 1) % m.stops.length) = some destStop ∧
      update_stop m stop = .ok
        ({ m with rng := { m.rng with floatPos := m.rng.floatPos + 1,
                                      intPos := m.rng.intPos + 2 },
                  printed := m.printed ++
                    [((m.rng.ints m.rng.intPos % (m.stops.length + 1) : Nat) : Int)],
                  passenger_num := some (n + 1) },
         { stop with passengers := stop.passengers ++
             [mkBusPassenger ("random" ++ toString n) stop.name destStop.name] },
         [Event.waits ("random" ++ toString n) stop.name]) := by
  have hlen0 : 0 < m.stops.length := List.length_pos.mpr hne
  have hmod : m.rng.ints (m.rng.intPos + 1) % m.stops.length < m.stops.length :=
    Nat.mod_lt _ hlen0
  obtain ⟨destStop, hget⟩ :
      ∃ d, m.stops.get? (m.rng.ints (m.rng.intPos + 1) % m.stops.length) = some d := by
    cases hg : m.stops.get? (m.rng.ints (m.rng.intPos + 1) % m.stops.length) with
    | some d => exact ⟨d, rfl⟩
    | none => exact absurd (List.get?_eq_none.mp hg) (by omega)
  have harg1 : ((m.stops.length : Int) - 0 + 1).toNat = m.stops.length + 1 := by omega
  have harg2 : ((m.stops.length : Int) - 1 - 0 + 1).toNat = m.stops.length := by omega
  have hidx : ((0 : Int) +
      ((m.rng.ints (m.rng.intPos + 1) % m.stops.length : Nat) : Int)).toNat
      = m.rng.ints (m.rng.intPos + 1) % m.stops.length := by
    rw [zero_add, Int.toNat_natCast]
  refine ⟨destStop, hget, ?_⟩
  unfold update_stop
  rw [hr]
  dsimp only [nextFloat]
  rw [if_pos hu]
  unfold randint
  rw [if_neg (show ¬((m.stops.length : Int) < 0) by omega)]
  dsimp only
  rw [harg1, if_neg (show ¬((m.stops.length : Int) - 1 < 0) by omega)]
  dsimp only
  rw [harg2, hidx, hget]
  dsimp only
  rw [hn]
  dsimp only
  simp

/-- C8: each tick, a stop with a configured rate draws one uniform value and
spawns exactly one passenger iff the rate exceeds the draw: the passenger is
named `'random' + counter` with the counter incremented after use, is appended
to the back of the stop's queue, and exactly one `waits` event is emitted; a
stop whose rate does not exceed the draw spawns nobody, and a stop absent
from `rates` never spawns (and consumes no draw). -/
theorem update_stop_spawn_characterization (m : LinearBusRouteModel)
    (stop : BusStop) (n : Nat)
    (hn : m.passenger_num = some n) (hne : m.stops ≠ []) :
    (m.rates.lookup stop.name = none → update_stop m stop = .ok (m, stop, [])) ∧
    ((m.rates.lookup stop.name).isSome →
      ¬((m.rates.lookup stop.name).getD 0 > m.rng.floats m.rng.floatPos) →
      update_stop m stop =
        .ok ({ m with rng := { m.rng with floatPos := m.rng.floatPos + 1 } },
             stop, [])) ∧
    ((m.rates.lookup stop.name).isSome →
      (m.rates.lookup stop.name).getD 0 > m.rng.floats m.rng.floatPos →
      ∃ dest m2,
        update_stop m stop = .ok (m2,
          { stop with passengers := stop.passengers ++
              [mkBusPassenger ("random" ++ toString n) stop.name dest] },
          [Event.waits ("random" ++ toString n) stop.name]) ∧
        m2.passenger_num = some (n + 1) ∧ m2.stops = m.stops ∧ m2.buses = m.buses) := by
  refine ⟨?_, ?_, ?_⟩
  · intro h
    unfold update_stop
    rw [h]
  · intro hsome hle
    rcases Option.isSome_iff_exists.mp hsome with ⟨r, hr⟩
    rw [hr] at hle
    unfold update_stop
    rw [hr]
    dsimp only [nextFloat]
    rw [if_neg (by simpa using hle)]
  · intro hsome hgt
    rcases Option.isSome_iff_exists.mp hsome with ⟨r, hr⟩
    rw [hr] at hgt
    obtain ⟨destStop, hget, heq⟩ :=
      update_stop_spawn_eq m stop n r hn hr (by simpa using hgt) hne
    exact ⟨destStop.name, _, heq, rfl, rfl, rfl⟩

/-- Witness for C8: a stop with rate 1 against a zero draw spawns exactly
`random0`, appends it to the queue and emits its waits event. -/
theorem update_stop_spawn_characterization_witness :
    ∃ dest m2,
      update_stop { mkLinearBusRouteModel 0 100
          [mkBusStop "S" (0, 0) [], mkBusStop "T" (10, 0) []] []
          [("S", (1 : Rat))] ⟨fun _ => 0, 0, fun _ => 0, 0⟩
          with passenger_num := some 0 }
        (mkBusStop "S" (0, 0) []) = .ok (m2,
          { mkBusStop "S" (0, 0) [] with passengers :=
              [] ++ [mkBusPassenger ("random" ++ toString 0) "S" dest] },
          [Event.waits ("random" ++ toString 0) "S"]) ∧
      m2.passenger_num = some (0 + 1) ∧
      m2.stops = [mkBusStop "S" (0, 0) [], mkBusStop "T" (10, 0) []] ∧
      m2.buses = [] :=
  (update_stop_spawn_characterization _ _ 0 rfl (by decide)).2.2 (by decide) (by decide)

/-- C10: on a tick in which a spawn fires, `update_stop` consumes one integer
draw in `[0, len(stops)]` and writes it to standard output before drawing the
destination index, so the destination comes from the second integer draw of
the spawn (the draw at stream position `intPos + 1`), not the first, and
exactly two integer draws are consumed. -/
theorem update_stop_extra_draw_before_destination (m : LinearBusRouteModel)
    (stop : BusStop) (n : Nat) (r : Rat)
    (hn : m.passenger_num = some n)
    (hr : m.rates.lookup stop.name = some r)
    (hu : r > m.rng.floats m.rng.floatPos)
    (hne : m.stops ≠ []) :
    ∃ m2 dest,
      m.stops.get? (m.rng.ints (m.rng.intPos + 1) % m.stops.length) = some dest ∧
      update_stop m stop = .ok (m2,
        { stop with passengers := stop.passengers ++
            [mkBusPassenger ("random" ++ toString n) stop.name dest.name] },
        [Event.waits ("random" ++ toString n) stop.name]) ∧
      m2.printed = m.printed ++
        [((m.rng.ints m.rng.intPos % (m.stops.length + 1) : Nat) : Int)] ∧
      m.rng.ints m.rng.intPos % (m.stops.length + 1) ≤ m.stops.length ∧
      m2.rng.intPos = m.rng.intPos + 2 := by
  obtain ⟨destStop, hget, heq⟩ := update_stop_spawn_eq m stop n r hn hr hu hne
  refine ⟨_, destStop, hget, heq, rfl, ?_, rfl⟩
  have := Nat.mod_lt (m.rng.ints m.rng.intPos)
    (show 0 < m.stops.length + 1 by omega)
  omega

/-- Witness for C10: with integer draws 5, 1, 0, 0, ... and two stops, the
spawn at rate 1 prints 5 mod 3 = 2 (the extra draw), selects the destination
with the second draw (index 1 mod 2 = 1, stop `T`), and advances the integer
stream by two. -/
theorem update_stop_extra_draw_before_destination_witness :
    ∃ m2 dest,
      [mkBusStop "S" (0, 0) [], mkBusStop "T" (10, 0) []].get?
          ((fun k => if k = 0 then 5 else if k = 1 then 1 else 0) (0 + 1) % 2) =
        some dest ∧
      update_stop { mkLinearBusRouteModel 0 100
          [mkBusStop "S" (0, 0) [], mkBusStop "T" (10, 0) []] []
          [("S", (1 : Rat))]
          ⟨fun k => if k = 0 then 5 else if k = 1 then 1 else 0, 0, fun _ => 0, 0⟩
          with passenger_num := some 7 }
        (mkBusStop "S" (0, 0) []) = .ok (m2,
          { mkBusStop "S" (0, 0) [] with passengers :=
              [] ++ [mkBusPassenger ("random" ++ toString 7) "S" dest.name] },
          [Event.waits ("random" ++ toString 7) "S"]) ∧
      m2.printed = [] ++
        [(((fun k => if k = 0 then 5 else if k = 1 then 1 else 0) 0 % (2 + 1) : Nat) : Int)] ∧
      (fun k => if k = 0 then 5 else if k = 1 then 1 else 0) 0 % (2 + 1) ≤ 2 ∧
      m2.rng.intPos = 0 + 2 :=
  update_stop_extra_draw_before_destination
    { mkLinearBusRouteModel 0 100
        [mkBusStop "S" (0, 0) [], mkBusStop "T" (10, 0) []] []
        [("S", (1 : Rat))]
        ⟨fun k => if k = 0 then 5 else if k = 1 then 1 else 0, 0, fun _ => 0, 0⟩
        with passenger_num := some 7 }
    (mkBusStop "S" (0, 0) []) 7 1 rfl rfl (by decide) (by decide)
